import Mathlib

/-
Verification of the URL-shortener service in src/main.py against its
natural-language specification.

The program keeps two module-level Python dicts,
  url_mappings : short_code -> original_url      (a plain dict)
  url_stats    : short_code -> {clicks, created_at, expires_at}   (a defaultdict)
and exposes Flask handlers shorten_url (POST /api/shorten),
redirect_to_url (GET /<short_code>), get_stats (GET /api/stats/<short_code>),
list_urls (GET /api/urls) and a before-request hook cleanup_expired_urls.

Shallow embedding choices, mirrored from the source:
  - Python dicts become association lists over String keys (insertion order,
    unique keys, in-place update on reassignment), with dlookup / dinsert /
    dpop mirroring `d[k]`, `d[k] = v` and `d.pop(k, None)`.
  - datetime instants become abstract integers (totally ordered, addition
    of durations); `timedelta(hours=h)` becomes an abstract duration.
  - The values stored under 'expires_at' / 'created_at' are Python `None`
    or an *isoformat string*; the StoredTime type records that runtime type
    distinction because cleanup_expired_urls compares such a stored value
    directly against a datetime, which in Python raises TypeError.
  - random.choice-driven code generation is externalized: shorten_url takes
    the stream of candidate codes the generator would produce.
  - Each handler is a function from its inputs and the store state to a
    result together with the successor state; fallible code returns Except.
-/

namespace UrlShortener

/-- Python datetime instants, modelled as abstract integers with the
chronological order.  `datetime.utcnow()` values are parameters `now`. -/
abbrev Datetime := Int

/-- The runtime value stored in `url_stats[code]['expires_at']` (and
`['created_at']`): Python `None`, or the isoformat *string* of instant `t`
(produced by `.isoformat()` on line 92-93 of src/main.py).  The constructor
tag records the Python runtime type; `isoformat` round-trips, so the string
is represented by the instant it denotes. -/
inductive StoredTime where
  | none
  | isoStr (t : Datetime)
deriving DecidableEq, Repr

/-- Python exceptions that the modelled code can raise. -/
inductive PyErr where
  | typeError
deriving DecidableEq, Repr

instance {ε α : Type} [DecidableEq ε] [DecidableEq α] : DecidableEq (Except ε α) := fun x y =>
  match x, y with
  | .error a, .error b =>
    if h : a = b then .isTrue (congrArg Except.error h)
    else .isFalse (fun hc => h (Except.error.inj hc))
  | .ok a, .ok b =>
    if h : a = b then .isTrue (congrArg Except.ok h)
    else .isFalse (fun hc => h (Except.ok.inj hc))
  | .error _, .ok _ => .isFalse (fun hc => Except.noConfusion hc)
  | .ok _, .error _ => .isFalse (fun hc => Except.noConfusion hc)

/-- A Python dict with String keys, as an insertion-ordered association
list with unique keys. -/
abbrev Dict (α : Type) := List (String × α)

/-- `d[k]` / `k in d`: first (and only) binding of `k`. -/
def dlookup {α : Type} (k : String) : Dict α → Option α
  | [] => Option.none
  | (k', v) :: rest => if k' = k then some v else dlookup k rest

/-- `d[k] = v`: replace the binding in place if present, else append. -/
def dinsert {α : Type} (k : String) (v : α) : Dict α → Dict α
  | [] => [(k, v)]
  | (k', v') :: rest => if k' = k then (k, v) :: rest else (k', v') :: dinsert k v rest

/-- `d.pop(k, None)`: drop the binding of `k` when present. -/
def dpop {α : Type} (k : String) : Dict α → Dict α
  | [] => []
  | (k', v') :: rest => if k' = k then rest else (k', v') :: dpop k rest

/-- The keys of a dict, in order. -/
def keys {α : Type} (d : Dict α) : List String := d.map Prod.fst

/-- One value of `url_stats`: the per-code metadata dict
`{'clicks': ..., 'created_at': ..., 'expires_at': ...}`. -/
structure StatEntry where
  clicks : Nat
  created_at : StoredTime
  expires_at : StoredTime
deriving DecidableEq, Repr

/-- The defaultdict default `{'clicks': 0, 'created_at': None, 'expires_at': None}`. -/
def defaultStat : StatEntry := { clicks := 0, created_at := .none, expires_at := .none }

/-- The shared store: the two module-level dicts of src/main.py. -/
structure Store where
  url_mappings : Dict String
  url_stats : Dict StatEntry
deriving DecidableEq, Repr

/-- A defaultdict read `url_stats[code]`: returns the entry and the
possibly-extended dict (a missing key is inserted with the default). -/
def dgetDefault (code : String) (d : Dict StatEntry) : StatEntry × Dict StatEntry :=
  match dlookup code d with
  | some st => (st, d)
  | Option.none => (defaultStat, dinsert code defaultStat d)

/-- Characters removed by Python `str.strip()` (ASCII whitespace; the rare
non-ASCII whitespace code points are out of scope for this model). -/
def pyWhitespace (c : Char) : Bool :=
  c == ' ' || c == '\t' || c == '\n' || c == '\r' || c == '\x0b' || c == '\x0c'

/-- Python `str.strip()`: drop leading and trailing whitespace. -/
def pyStrip (s : String) : String :=
  String.mk (((s.toList.dropWhile pyWhitespace).reverse.dropWhile pyWhitespace).reverse)

/-- Characters allowed in a URL scheme by `urllib.parse` (letters, digits,
'+', '-', '.'). -/
def schemeChar (c : Char) : Bool :=
  c.isAlphanum || c == '+' || c == '-' || c == '.'

/-- Models the scheme splitting of `urllib.parse.urlparse`: if the text up
to the first ':' is non-empty, starts with an ASCII letter and consists of
scheme characters, it is the (lowercased) scheme and the rest follows the
colon; otherwise the scheme is empty and nothing is consumed. -/
def splitScheme (cs : List Char) : List Char × List Char :=
  let before := cs.takeWhile (fun c => c != ':')
  let after := cs.dropWhile (fun c => c != ':')
  match after with
  | [] => ([], cs)
  | _ :: rest =>
    match before with
    | [] => ([], cs)
    | c :: _ =>
      if c.isAlpha && before.all schemeChar then (before.map Char.toLower, rest)
      else ([], cs)

/-- Models the netloc extraction of `urllib.parse.urlparse`: when the text
after the scheme starts with "//", the netloc runs up to the next '/', '?'
or '#'. -/
def splitNetloc (cs : List Char) : List Char :=
  match cs with
  | '/' :: '/' :: rest => rest.takeWhile (fun c => c != '/' && c != '?' && c != '#')
  | _ => []

/-- `is_valid_url` (src/main.py lines 21-27): `urlparse` the URL and require
`result.scheme in ('http', 'https')` and a truthy (non-empty) `result.netloc`.
(The ValueError branch of `urlparse` concerns malformed bracketed hosts,
which this model does not represent; it yields False like any other
non-matching input.) -/
def is_valid_url (url : String) : Bool :=
  let p := splitScheme url.toList
  (p.1 == "http".toList || p.1 == "https".toList) && !(splitNetloc p.2).isEmpty

/-- The filter expression of cleanup_expired_urls (line 33):
`stats['expires_at'] and stats['expires_at'] < now`.  `None` is falsy, so
the conjunction short-circuits to falsy; a (truthy, non-empty) isoformat
string reaches the comparison `str < datetime`, which raises TypeError. -/
def expiredTest (e : StoredTime) (_now : Datetime) : Except PyErr Bool :=
  match e with
  | .none => .ok false
  | .isoStr _ => .error .typeError

/-- The list comprehension of lines 32-33: collect the codes whose
'expires_at' passes `expiredTest`, evaluating entries left to right; the
first raised exception aborts the whole comprehension. -/
def expiredCodes (now : Datetime) : Dict StatEntry → Except PyErr (List String)
  | [] => .ok []
  | (code, st) :: rest =>
    match expiredTest st.expires_at now with
    | .error e => .error e
    | .ok b =>
      match expiredCodes now rest with
      | .error e => .error e
      | .ok more => .ok (if b then code :: more else more)

/-- `cleanup_expired_urls` (lines 29-38): compute the expired codes, then
pop each from both dicts.  The Python function returns None; an uncaught
exception is the error case. -/
def cleanup_expired_urls (now : Datetime) (s : Store) : Except PyErr Store :=
  match expiredCodes now s.url_stats with
  | .error e => .error e
  | .ok expired =>
    .ok { url_mappings := expired.foldl (fun d c => dpop c d) s.url_mappings,
          url_stats := expired.foldl (fun d c => dpop c d) s.url_stats }

/-- Outcome of GET /<short_code>. -/
inductive RedirectResult where
  | notFound
  | redirect (location : String)
deriving DecidableEq, Repr

/-- `url_stats[short_code]['clicks'] += 1` (line 111): a defaultdict
read-modify-write, creating a default entry first when the key is absent. -/
def statsIncClick (code : String) (d : Dict StatEntry) : Dict StatEntry :=
  dinsert code
    { (dlookup code d).getD defaultStat with
      clicks := ((dlookup code d).getD defaultStat).clicks + 1 } d

/-- `redirect_to_url` (lines 104-113): 404 when the code is not in
url_mappings; otherwise increment its click counter and 302-redirect to the
mapped URL.  Note that no expiry check happens here. -/
def redirect_to_url (short_code : String) (s : Store) : RedirectResult × Store :=
  match dlookup short_code s.url_mappings with
  | Option.none => (.notFound, s)
  | some url => (.redirect url, { s with url_stats := statsIncClick short_code s.url_stats })

/-- `datetime.fromisoformat` applied to the stored isoformat string of
instant `t` recovers `t`. -/
def fromisoformat (t : Datetime) : Datetime := t

/-- The `is_active` expression of get_stats (line 128):
`not (stats['expires_at'] and datetime.fromisoformat(stats['expires_at']) < datetime.utcnow())`. -/
def is_active_of (e : StoredTime) (now : Datetime) : Bool :=
  match e with
  | .none => true
  | .isoStr t => !(fromisoformat t < now : Bool)

/-- The JSON payload of GET /api/stats/<short_code>. -/
structure StatsResponse where
  short_code : String
  original_url : String
  clicks : Nat
  created_at : StoredTime
  expires_at : StoredTime
  is_active : Bool
deriving DecidableEq, Repr

/-- `get_stats` (lines 115-129): 404 (`Option.none`) when the code is not in
url_mappings; otherwise read `url_stats[short_code]` (a defaultdict access,
hence the successor store) and return the snapshot. -/
def get_stats (short_code : String) (now : Datetime) (s : Store) :
    Option StatsResponse × Store :=
  match dlookup short_code s.url_mappings with
  | Option.none => (Option.none, s)
  | some url =>
    let r := dgetDefault short_code s.url_stats
    (some { short_code := short_code, original_url := url, clicks := r.1.clicks,
            created_at := r.1.created_at, expires_at := r.1.expires_at,
            is_active := is_active_of r.1.expires_at now },
     { s with url_stats := r.2 })

/-- The JSON body of POST /api/shorten: the two keys the handler reads.
`url` is a string per the interface schema; `ttl_hours` is a Python number,
modelled as an abstract integer count of hours (only `None`-ness, zero-ness
and sign are ever consumed by the claims). -/
structure ShortenBody where
  url : Option String
  ttl_hours : Option Int
deriving DecidableEq, Repr

/-- Python truthiness of the request dict: non-empty. -/
def bodyTruthy (b : ShortenBody) : Bool := b.url.isSome || b.ttl_hours.isSome

/-- `timedelta(hours=h)` as an abstract duration: order-, sign- and
zero-preserving, added to instants. -/
def timedelta_hours (h : Int) : Int := h

/-- The expression of lines 87-88 producing the stored expiry:
`created_at + timedelta(hours=ttl_hours) if ttl_hours else None`, then
`.isoformat() if expires_at else None` on line 93.  A `ttl_hours` of 0 is
falsy, so it stores no expiry; a freshly built datetime is always truthy. -/
def expires_at_of (now : Datetime) (ttl : Option Int) : StoredTime :=
  match ttl with
  | some t => if t ≠ 0 then .isoStr (now + timedelta_hours t) else .none
  | Option.none => .none

/-- The 201 payload of POST /api/shorten. -/
structure ShortenResponse where
  short_code : String
  short_url : String
  original_url : String
  expires_at : StoredTime
deriving DecidableEq, Repr

/-- Outcome of POST /api/shorten. -/
inductive ShortenResult where
  | badRequest (error : String)
  | created (resp : ShortenResponse)
deriving DecidableEq, Repr

/-- The retry loop of lines 80-84: take candidates from the generator until
one is not a key of url_mappings.  `Option.none` models the
probability-zero run in which the stream never yields a free code. -/
def pickCode : List String → Dict String → Option String
  | [], _ => Option.none
  | c :: rest, m => if (dlookup c m).isSome then pickCode rest m else some c

/-- `shorten_url` (lines 65-102).  `candidates` is the stream of codes
`generate_short_code` would return, `now` is `datetime.utcnow()`,
`host_url` is `request.host_url`.  Returns `Option.none` only when the
collision-retry loop never terminates. -/
def shorten_url (candidates : List String) (now : Datetime) (host_url : String)
    (body : Option ShortenBody) (s : Store) : Option (ShortenResult × Store) :=
  match body with
  | Option.none => some (.badRequest "URL is required", s)
  | some b =>
    if bodyTruthy b = false then some (.badRequest "URL is required", s)
    else
      match b.url with
      | Option.none => some (.badRequest "URL is required", s)
      | some rawUrl =>
        let original_url := pyStrip rawUrl
        if is_valid_url original_url = false then
          some (.badRequest "Invalid URL. Must include http:// or https:// and a domain", s)
        else
          match pickCode candidates s.url_mappings with
          | Option.none => Option.none
          | some short_code =>
            let expires_at := expires_at_of now b.ttl_hours
            some (.created { short_code := short_code,
                             short_url := host_url ++ short_code,
                             original_url := original_url,
                             expires_at := expires_at },
                  { url_mappings := dinsert short_code original_url s.url_mappings,
                    url_stats := dinsert short_code
                      { clicks := 0, created_at := .isoStr now, expires_at := expires_at }
                      s.url_stats })

/-- One element of the GET /api/urls listing. -/
structure UrlEntry where
  short_code : String
  short_url : String
  clicks : Nat
deriving DecidableEq, Repr

/-- One step of the list comprehension of lines 136-140: a defaultdict read
of `url_stats[code]` threaded through the accumulator. -/
def listStep (host_url : String) (acc : List UrlEntry × Dict StatEntry)
    (p : String × String) : List UrlEntry × Dict StatEntry :=
  (acc.1 ++ [{ short_code := p.1, short_url := host_url ++ p.1,
               clicks := (dgetDefault p.1 acc.2).1.clicks }],
   (dgetDefault p.1 acc.2).2)

/-- `list_urls` (lines 131-141): the count is `len(url_mappings)` and the
entries are built per mapping, reading clicks from the stats defaultdict. -/
def list_urls (host_url : String) (s : Store) : (Nat × List UrlEntry) × Store :=
  let r := s.url_mappings.foldl (listStep host_url) ([], s.url_stats)
  ((s.url_mappings.length, r.1), { s with url_stats := r.2 })

/-- The value of the 'url' key of the request body, when the body and the
key are present (`data['url']` guarded by `not data or 'url' not in data`). -/
def urlField : Option ShortenBody → Option String
  | Option.none => Option.none
  | some b => b.url

/-- The value of the 'ttl_hours' key of the request body
(`data.get('ttl_hours', None)`). -/
def ttlField : Option ShortenBody → Option Int
  | Option.none => Option.none
  | some b => b.ttl_hours

/-! ### Concurrency model for GET /<short_code>

`redirect_to_url` performs two observable atomic actions: the membership
test `short_code not in url_mappings` (line 107, outside the lock) and the
lock-protected increment `url_stats[short_code]['clicks'] += 1` (lines
110-111).  A concurrent execution of N such requests is any interleaving of
those per-thread atomic steps against the shared store. -/

/-- The control state of one request thread executing redirect_to_url. -/
inductive TStat where
  | ready
  | checked (found : Bool)
  | done (found : Bool)
deriving DecidableEq, Repr

/-- Whether a thread has finished its request. -/
def isDone : TStat → Bool
  | .done _ => true
  | _ => false

/-- One atomic step of a thread resolving `code`: the membership test, the
locked increment (when the code was found), or the 404 return.  A finished
thread takes no further action. -/
def threadStep (code : String) (s : Store) : TStat → TStat × Store
  | .ready => (.checked ((dlookup code s.url_mappings).isSome), s)
  | .checked true => (.done true, { s with url_stats := statsIncClick code s.url_stats })
  | .checked false => (.done false, s)
  | .done b => (.done b, s)

/-- Run the step of the thread at position `i` (an out-of-range index is a
no-op). -/
def stepThreads (code : String) (s : Store) : Nat → List TStat → List TStat × Store
  | _, [] => ([], s)
  | 0, t :: ts => let r := threadStep code s t; (r.1 :: ts, r.2)
  | i + 1, t :: ts => let r := stepThreads code s i ts; (t :: r.1, r.2)

/-- Execute a schedule: at each point the scheduler picks which thread
steps next.  Every interleaving of the N concurrent requests is some
schedule. -/
def runSchedule (code : String) : List Nat → Store → List TStat → Store × List TStat
  | [], s, ts => (s, ts)
  | i :: rest, s, ts =>
    let r := stepThreads code s i ts
    runSchedule code rest r.2 r.1

/-- The number of threads that completed a successful (found) resolution. -/
def dcount : List TStat → Nat
  | [] => 0
  | t :: ts => (if t = TStat.done true then 1 else 0) + dcount ts

/-- The click counter currently recorded for `code` (0 when absent, as the
stats dict is a defaultdict). -/
def clicksOf (s : Store) (code : String) : Nat :=
  ((dlookup code s.url_stats).getD defaultStat).clicks

/-! ### Store invariants -/

/-- The two dicts index exactly the same set of codes. -/
def sameKeys (s : Store) : Prop :=
  (∀ c ∈ keys s.url_mappings, c ∈ keys s.url_stats) ∧
  (∀ c ∈ keys s.url_stats, c ∈ keys s.url_mappings)

instance (s : Store) : Decidable (sameKeys s) := by unfold sameKeys; infer_instance

/-- No code occurs twice in either dict: short-code uniqueness among the
stored records. -/
def distinctCodes (s : Store) : Prop :=
  (keys s.url_mappings).Nodup ∧ (keys s.url_stats).Nodup

instance (s : Store) : Decidable (distinctCodes s) := by unfold distinctCodes; infer_instance

/-! ### Concrete store states used to evaluate the code -/

/-- The initial state: both module-level dicts start empty. -/
def emptyStore : Store := { url_mappings := [], url_stats := [] }

/-- A store holding one record whose expiry (instant 100) is already past
at instant 200.  Reachable: insert with a ttl, let it lapse (the sweep
cannot remove it, see `C1_sweep_raises_typeerror`). -/
def exExpired : Store :=
  { url_mappings := [("abc123", "https://x.example")],
    url_stats := [("abc123",
      { clicks := 0, created_at := .isoStr 50, expires_at := .isoStr 100 })] }

/-- `exExpired` after one click increment. -/
def exExpiredClicked : Store :=
  { url_mappings := [("abc123", "https://x.example")],
    url_stats := [("abc123",
      { clicks := 1, created_at := .isoStr 50, expires_at := .isoStr 100 })] }

/-- A store holding one record with no expiry set. -/
def exNoTtl : Store :=
  { url_mappings := [("abc123", "https://x.example")],
    url_stats := [("abc123",
      { clicks := 0, created_at := .isoStr 50, expires_at := .none })] }

/-- The store after inserting "https://temp.com" with ttl_hours = 1 at
instant 0, under candidate code "abc123". -/
def storeC2 : Store :=
  { url_mappings := [("abc123", "https://temp.com")],
    url_stats := [("abc123",
      { clicks := 0, created_at := .isoStr 0, expires_at := .isoStr 1 })] }

/-- The store after inserting "https://example.com" with ttl_hours = 0 at
instant 0, under candidate code "abc123". -/
def storeC3 : Store :=
  { url_mappings := [("abc123", "https://example.com")],
    url_stats := [("abc123",
      { clicks := 0, created_at := .isoStr 0, expires_at := .none })] }

/-! ### Dictionary lemmas -/

theorem dlookup_dinsert_self {α : Type} (k : String) (v : α) (d : Dict α) :
    dlookup k (dinsert k v d) = some v := by
  induction d with
  | nil => simp [dinsert, dlookup]
  | cons p rest ih =>
    obtain ⟨k', v'⟩ := p
    by_cases h : k' = k
    · simp [dinsert, dlookup, h]
    · simp [dinsert, dlookup, h, ih]

theorem keys_nil {α : Type} : keys ([] : Dict α) = [] := rfl

theorem keys_cons {α : Type} (p : String × α) (d : Dict α) :
    keys (p :: d) = p.1 :: keys d := rfl

theorem mem_keys_iff_isSome {α : Type} (k : String) (d : Dict α) :
    k ∈ keys d ↔ (dlookup k d).isSome = true := by
  induction d with
  | nil => simp [keys_nil, dlookup]
  | cons p rest ih =>
    obtain ⟨k', v'⟩ := p
    rw [keys_cons, List.mem_cons, dlookup]
    by_cases h : k' = k
    · simp [h]
    · have h2 : ¬ k = k' := fun e => h e.symm
      simp [h, h2, ih]

theorem mem_keys_dinsert {α : Type} (c k : String) (v : α) (d : Dict α) :
    c ∈ keys (dinsert k v d) ↔ c = k ∨ c ∈ keys d := by
  induction d with
  | nil => simp [dinsert, keys_cons, keys_nil]
  | cons p rest ih =>
    obtain ⟨k', v'⟩ := p
    by_cases h : k' = k
    · subst h
      rw [dinsert, if_pos rfl, keys_cons, keys_cons]
      simp only [List.mem_cons]
      tauto
    · rw [dinsert, if_neg h, keys_cons, keys_cons]
      simp only [List.mem_cons, ih]
      tauto

theorem nodup_keys_dinsert {α : Type} (k : String) (v : α) (d : Dict α)
    (h : (keys d).Nodup) : (keys (dinsert k v d)).Nodup := by
  induction d with
  | nil => simp [dinsert, keys_cons, keys_nil]
  | cons p rest ih =>
    obtain ⟨k', v'⟩ := p
    rw [keys_cons, List.nodup_cons] at h
    by_cases hk : k' = k
    · subst hk
      rw [dinsert, if_pos rfl, keys_cons]
      exact List.nodup_cons.mpr h
    · rw [dinsert, if_neg hk, keys_cons]
      refine List.nodup_cons.mpr ⟨?_, ih h.2⟩
      intro hmem
      rcases (mem_keys_dinsert k' k v rest).mp hmem with h1 | h1
      · exact hk h1
      · exact h.1 h1

theorem dgetDefault_of_lookup_some (c : String) (d : Dict StatEntry) (e : StatEntry)
    (h : dlookup c d = some e) : dgetDefault c d = (e, d) := by
  simp [dgetDefault, h]

theorem dgetDefault_of_lookup_none (c : String) (d : Dict StatEntry)
    (h : dlookup c d = Option.none) :
    dgetDefault c d = (defaultStat, dinsert c defaultStat d) := by
  simp [dgetDefault, h]

/-! ### Operation-level lemmas -/

theorem pickCode_eq_some (cs : List String) (m : Dict String) (c : String)
    (h : pickCode cs m = some c) : dlookup c m = Option.none := by
  induction cs with
  | nil => simp [pickCode] at h
  | cons a rest ih =>
    cases hl : dlookup a m with
    | some v => rw [pickCode, hl] at h; exact ih (by simpa using h)
    | none =>
      rw [pickCode, hl] at h
      simp at h
      subst h
      exact hl

theorem expiredCodes_ok (now : Datetime) (d : Dict StatEntry) (l : List String)
    (h : expiredCodes now d = .ok l) : l = [] := by
  induction d generalizing l with
  | nil =>
    rw [expiredCodes] at h
    exact (Except.ok.inj h).symm
  | cons p rest ih =>
    obtain ⟨c, st⟩ := p
    rw [expiredCodes] at h
    cases he : st.expires_at with
    | none =>
      rw [he] at h
      simp only [expiredTest] at h
      cases hrest : expiredCodes now rest with
      | error e => rw [hrest] at h; simp at h
      | ok more =>
        rw [hrest] at h
        simp at h
        rw [h.symm]
        exact ih more hrest
    | isoStr t =>
      rw [he] at h
      simp only [expiredTest] at h
      exact Except.noConfusion h

theorem cleanup_ok_eq (now : Datetime) (s s' : Store)
    (h : cleanup_expired_urls now s = .ok s') : s' = s := by
  rw [cleanup_expired_urls] at h
  cases hc : expiredCodes now s.url_stats with
  | error e => rw [hc] at h; simp at h
  | ok l =>
    have hl := expiredCodes_ok now _ l hc
    subst hl
    rw [hc] at h
    simp only [List.foldl_nil] at h
    exact (Except.ok.inj h).symm

theorem shorten_of_url_none (candidates : List String) (now : Datetime) (host : String)
    (body : Option ShortenBody) (s : Store) (h : urlField body = Option.none) :
    shorten_url candidates now host body s = some (.badRequest "URL is required", s) := by
  cases body with
  | none => rfl
  | some b =>
    have hu : b.url = Option.none := h
    cases hb : bodyTruthy b with
    | false => simp [shorten_url, hb]
    | true => simp [shorten_url, hb, hu]

theorem shorten_of_invalid (candidates : List String) (now : Datetime) (host : String)
    (body : Option ShortenBody) (s : Store) (u : String)
    (h : urlField body = some u) (hv : is_valid_url (pyStrip u) = false) :
    shorten_url candidates now host body s =
      some (.badRequest "Invalid URL. Must include http:// or https:// and a domain", s) := by
  cases body with
  | none => exact absurd h (by simp [urlField])
  | some b =>
    have hu : b.url = some u := h
    have hb : bodyTruthy b = true := by simp [bodyTruthy, hu]
    simp [shorten_url, hb, hu, hv]

theorem shorten_of_valid (candidates : List String) (now : Datetime) (host : String)
    (body : Option ShortenBody) (s : Store) (u c : String)
    (h : urlField body = some u) (hv : is_valid_url (pyStrip u) = true)
    (hp : pickCode candidates s.url_mappings = some c) :
    shorten_url candidates now host body s =
      some (.created { short_code := c, short_url := host ++ c,
                       original_url := pyStrip u,
                       expires_at := expires_at_of now (ttlField body) },
            { url_mappings := dinsert c (pyStrip u) s.url_mappings,
              url_stats := dinsert c
                { clicks := 0, created_at := .isoStr now,
                  expires_at := expires_at_of now (ttlField body) } s.url_stats }) := by
  cases body with
  | none => exact absurd h (by simp [urlField])
  | some b =>
    have hu : b.url = some u := h
    have hb : bodyTruthy b = true := by simp [bodyTruthy, hu]
    simp [shorten_url, hb, hu, hv, hp, ttlField]

theorem shorten_badRequest_inv (candidates : List String) (now : Datetime) (host : String)
    (body : Option ShortenBody) (s : Store) (msg : String) (s' : Store)
    (h : shorten_url candidates now host body s = some (.badRequest msg, s')) :
    s' = s ∧ (urlField body = Option.none ∨
      ∃ u, urlField body = some u ∧ is_valid_url (pyStrip u) = false) := by
  cases body with
  | none =>
    simp [shorten_url] at h
    exact ⟨h.2.symm, Or.inl rfl⟩
  | some b =>
    cases hb : bodyTruthy b with
    | false =>
      have hu : b.url = Option.none := by
        cases hu2 : b.url with
        | none => rfl
        | some u => simp [bodyTruthy, hu2] at hb
      simp [shorten_url, hb] at h
      exact ⟨h.2.symm, Or.inl hu⟩
    | true =>
      cases hu : b.url with
      | none =>
        simp [shorten_url, hb, hu] at h
        exact ⟨h.2.symm, Or.inl hu⟩
      | some u =>
        cases hv : is_valid_url (pyStrip u) with
        | false =>
          simp [shorten_url, hb, hu, hv] at h
          exact ⟨h.2.symm, Or.inr ⟨u, hu, hv⟩⟩
        | true =>
          cases hp : pickCode candidates s.url_mappings with
          | none => simp [shorten_url, hb, hu, hv, hp] at h
          | some c => simp [shorten_url, hb, hu, hv, hp] at h

theorem shorten_created_inv (candidates : List String) (now : Datetime) (host : String)
    (body : Option ShortenBody) (s : Store) (resp : ShortenResponse) (s' : Store)
    (h : shorten_url candidates now host body s = some (.created resp, s')) :
    ∃ b u c, body = some b ∧ b.url = some u ∧ is_valid_url (pyStrip u) = true ∧
      pickCode candidates s.url_mappings = some c ∧
      resp = { short_code := c, short_url := host ++ c,
               original_url := pyStrip u, expires_at := expires_at_of now b.ttl_hours } ∧
      s' = { url_mappings := dinsert c (pyStrip u) s.url_mappings,
             url_stats := dinsert c
               { clicks := 0, created_at := .isoStr now,
                 expires_at := expires_at_of now b.ttl_hours } s.url_stats } := by
  cases body with
  | none => simp [shorten_url] at h
  | some b =>
    cases hb : bodyTruthy b with
    | false => simp [shorten_url, hb] at h
    | true =>
      cases hu : b.url with
      | none => simp [shorten_url, hb, hu] at h
      | some u =>
        cases hv : is_valid_url (pyStrip u) with
        | false => simp [shorten_url, hb, hu, hv] at h
        | true =>
          cases hp : pickCode candidates s.url_mappings with
          | none => simp [shorten_url, hb, hu, hv, hp] at h
          | some c =>
            simp [shorten_url, hb, hu, hv, hp] at h
            exact ⟨b, u, c, rfl, hu, hv, rfl, h.1.symm, h.2.symm⟩

theorem mem_keys_statsIncClick (c code : String) (d : Dict StatEntry) :
    c ∈ keys (statsIncClick code d) ↔ c = code ∨ c ∈ keys d :=
  mem_keys_dinsert c code _ d

theorem nodup_keys_statsIncClick (code : String) (d : Dict StatEntry)
    (h : (keys d).Nodup) : (keys (statsIncClick code d)).Nodup :=
  nodup_keys_dinsert code _ d h

theorem foldUrls_nodup (host : String) (l : List (String × String))
    (acc : List UrlEntry) (st : Dict StatEntry) (h : (keys st).Nodup) :
    (keys (l.foldl (listStep host) (acc, st)).2).Nodup := by
  induction l generalizing acc st with
  | nil => exact h
  | cons p rest ih =>
    rw [List.foldl_cons]
    cases hl : dlookup p.1 st with
    | some e =>
      have hstep : listStep host (acc, st) p
          = (acc ++ [{ short_code := p.1, short_url := host ++ p.1, clicks := e.clicks }], st) := by
        simp [listStep, dgetDefault_of_lookup_some _ _ _ hl]
      rw [hstep]
      exact ih _ _ h
    | none =>
      have hstep : listStep host (acc, st) p
          = (acc ++ [{ short_code := p.1, short_url := host ++ p.1,
                       clicks := defaultStat.clicks }], dinsert p.1 defaultStat st) := by
        simp [listStep, dgetDefault_of_lookup_none _ _ hl]
      rw [hstep]
      exact ih _ _ (nodup_keys_dinsert _ _ _ h)

theorem foldUrls_stats_eq (host : String) (l : List (String × String))
    (acc : List UrlEntry) (st : Dict StatEntry)
    (h : ∀ p ∈ l, (dlookup p.1 st).isSome = true) :
    (l.foldl (listStep host) (acc, st)).2 = st := by
  induction l generalizing acc with
  | nil => rfl
  | cons p rest ih =>
    rw [List.foldl_cons]
    obtain ⟨e, he⟩ := Option.isSome_iff_exists.mp (h p (List.mem_cons_self p rest))
    have hstep : listStep host (acc, st) p
        = (acc ++ [{ short_code := p.1, short_url := host ++ p.1, clicks := e.clicks }], st) := by
      simp [listStep, dgetDefault_of_lookup_some _ _ _ he]
    rw [hstep]
    exact ih _ (fun q hq => h q (List.mem_cons_of_mem p hq))

/-! ### Lemmas about the concurrency model -/

theorem clicksOf_statsIncClick (code : String) (s : Store) :
    clicksOf { s with url_stats := statsIncClick code s.url_stats } code
      = clicksOf s code + 1 := by
  simp [clicksOf, statsIncClick, dlookup_dinsert_self]

theorem dcount_done_eq_length (ts : List TStat) (h : ∀ t ∈ ts, t = TStat.done true) :
    dcount ts = ts.length := by
  induction ts with
  | nil => rfl
  | cons t rest ih =>
    rw [dcount, h t (List.mem_cons_self t rest), if_pos rfl, List.length_cons,
      ih (fun q hq => h q (List.mem_cons_of_mem t hq))]
    omega

theorem dcount_replicate_ready (n : Nat) : dcount (List.replicate n TStat.ready) = 0 := by
  induction n with
  | zero => rfl
  | succ k ih =>
    rw [List.replicate_succ, dcount, ih]
    simp

/-- A single scheduled step preserves the mapping table, keeps every thread
in a sound control state (given that the resolved code is present), keeps
the thread count, and accounts each completed resolution as exactly one
click. -/
theorem stepThreads_inv (code : String) (ts : List TStat) :
    ∀ (i : Nat) (s : Store),
      (dlookup code s.url_mappings).isSome = true →
      (∀ t ∈ ts, t = TStat.ready ∨ t = TStat.checked true ∨ t = TStat.done true) →
      (stepThreads code s i ts).2.url_mappings = s.url_mappings ∧
      (∀ t ∈ (stepThreads code s i ts).1,
        t = TStat.ready ∨ t = TStat.checked true ∨ t = TStat.done true) ∧
      (stepThreads code s i ts).1.length = ts.length ∧
      clicksOf (stepThreads code s i ts).2 code + dcount ts
        = clicksOf s code + dcount (stepThreads code s i ts).1 := by
  induction ts with
  | nil =>
    intro i s hfound hok
    cases i with
    | zero => exact ⟨rfl, fun t ht => absurd ht (List.not_mem_nil t), rfl, rfl⟩
    | succ k => exact ⟨rfl, fun t ht => absurd ht (List.not_mem_nil t), rfl, rfl⟩
  | cons t rest ih =>
    intro i s hfound hok
    cases i with
    | zero =>
      rcases hok t (List.mem_cons_self t rest) with ht | ht | ht
      · subst ht
        refine ⟨rfl, ?_, rfl, ?_⟩
        · intro t' ht'
          rcases List.mem_cons.mp ht' with h1 | h1
          · have h2 : t' = TStat.checked ((dlookup code s.url_mappings).isSome) := h1
            rw [h2, hfound]
            exact Or.inr (Or.inl rfl)
          · exact hok t' (List.mem_cons_of_mem _ h1)
        · show clicksOf s code + dcount (TStat.ready :: rest)
            = clicksOf s code
              + dcount (TStat.checked ((dlookup code s.url_mappings).isSome) :: rest)
          rw [hfound, dcount, dcount, if_neg (fun hh => TStat.noConfusion hh),
            if_neg (fun hh => TStat.noConfusion hh)]
      · subst ht
        refine ⟨rfl, ?_, rfl, ?_⟩
        · intro t' ht'
          rcases List.mem_cons.mp ht' with h1 | h1
          · exact Or.inr (Or.inr h1)
          · exact hok t' (List.mem_cons_of_mem _ h1)
        · show clicksOf { s with url_stats := statsIncClick code s.url_stats } code
              + dcount (TStat.checked true :: rest)
            = clicksOf s code + dcount (TStat.done true :: rest)
          rw [clicksOf_statsIncClick, dcount, dcount,
            if_neg (fun hh => TStat.noConfusion hh), if_pos rfl]
          omega
      · subst ht
        refine ⟨rfl, ?_, rfl, rfl⟩
        intro t' ht'
        rcases List.mem_cons.mp ht' with h1 | h1
        · exact Or.inr (Or.inr h1)
        · exact hok t' (List.mem_cons_of_mem _ h1)
    | succ k =>
      obtain ⟨hm, hok2, hlen, hc⟩ :=
        ih k s hfound (fun q hq => hok q (List.mem_cons_of_mem t hq))
      refine ⟨hm, ?_, ?_, ?_⟩
      · intro t' ht'
        rcases List.mem_cons.mp ht' with h1 | h1
        · rw [h1]
          exact hok t (List.mem_cons_self t rest)
        · exact hok2 t' h1
      · show ((t :: (stepThreads code s k rest).1) : List TStat).length = (t :: rest).length
        rw [List.length_cons, List.length_cons, hlen]
      · show clicksOf (stepThreads code s k rest).2 code + dcount (t :: rest)
          = clicksOf s code + dcount (t :: (stepThreads code s k rest).1)
        rw [dcount, dcount]
        omega

/-- Running any schedule preserves the mapping table and accounts the
clicks of the resolved code as one per completed resolution. -/
theorem runSchedule_inv (code : String) (sched : List Nat) :
    ∀ (s : Store) (ts : List TStat),
      (dlookup code s.url_mappings).isSome = true →
      (∀ t ∈ ts, t = TStat.ready ∨ t = TStat.checked true ∨ t = TStat.done true) →
      (runSchedule code sched s ts).1.url_mappings = s.url_mappings ∧
      (∀ t ∈ (runSchedule code sched s ts).2,
        t = TStat.ready ∨ t = TStat.checked true ∨ t = TStat.done true) ∧
      (runSchedule code sched s ts).2.length = ts.length ∧
      clicksOf (runSchedule code sched s ts).1 code + dcount ts
        = clicksOf s code + dcount (runSchedule code sched s ts).2 := by
  induction sched with
  | nil =>
    intro s ts hfound hok
    exact ⟨rfl, hok, rfl, rfl⟩
  | cons i rest ih =>
    intro s ts hfound hok
    obtain ⟨hm, hok2, hlen, hc⟩ := stepThreads_inv code ts i s hfound hok
    have hfound2 : (dlookup code (stepThreads code s i ts).2.url_mappings).isSome = true := by
      rw [hm]
      exact hfound
    obtain ⟨hm2, hok3, hlen2, hc2⟩ := ih (stepThreads code s i ts).2 (stepThreads code s i ts).1
      hfound2 hok2
    refine ⟨?_, hok3, ?_, ?_⟩
    · show (runSchedule code rest (stepThreads code s i ts).2
        (stepThreads code s i ts).1).1.url_mappings = s.url_mappings
      rw [hm2, hm]
    · show (runSchedule code rest (stepThreads code s i ts).2
        (stepThreads code s i ts).1).2.length = ts.length
      rw [hlen2, hlen]
    · show clicksOf (runSchedule code rest (stepThreads code s i ts).2
          (stepThreads code s i ts).1).1 code + dcount ts
        = clicksOf s code + dcount (runSchedule code rest (stepThreads code s i ts).2
          (stepThreads code s i ts).1).2
      omega

/-! ### Claim theorems -/

/-- Claim C1: "For every store state and every time now, Sweep(now) removes
exactly those records whose expires_at is set and is ≤ now (records with
expires_at absent or > now are untouched), and it returns the count of
records removed."  The code violates this: whenever any record has
`expires_at` set, `cleanup_expired_urls` compares the stored isoformat
*string* against the `datetime` value `now` and raises TypeError, removing
nothing; when no record has `expires_at` set it succeeds but removes
nothing either, and the Python function returns None, never a count.  The
theorem evaluates the code on a store holding one long-expired record
(expiry 100, now 200) and on a store holding one non-expiring record. -/
theorem C1_sweep_raises_typeerror :
    cleanup_expired_urls 200 exExpired = .error .typeError ∧
    cleanup_expired_urls 200 exNoTtl = .ok exNoTtl := by decide

/-- Claim C2: "No store operation (Insert, Resolve, Stats, List, Sweep)
ever fails internally ... the error/exception branch of any other kind is
unreachable."  The code violates this: from the empty store, a single valid
Insert with ttl_hours = 1 reaches a state on which Sweep — which runs
before every request — raises TypeError. -/
theorem C2_internal_error_reachable :
    shorten_url ["abc123"] 0 "http://h/"
        (some { url := some "https://temp.com", ttl_hours := some 1 }) emptyStore
      = some (.created { short_code := "abc123", short_url := "http://h/abc123",
                         original_url := "https://temp.com", expires_at := .isoStr 1 },
              storeC2) ∧
    cleanup_expired_urls 5 storeC2 = .error .typeError := by decide

/-- Claim C3: "Insert called with a ttl of 0 or a negative duration yields
a record that is immediately expired: the very next Resolve (and Stats) on
the returned code reports NotFound."  The code violates this: `if
ttl_hours` treats a ttl of 0 as falsy, so the record is stored with *no*
expiry; the very next Resolve succeeds with a 302 and Stats reports the
record active at every later instant. -/
theorem C3_zero_ttl_never_expires :
    shorten_url ["abc123"] 0 "h/"
        (some { url := some "https://example.com", ttl_hours := some 0 }) emptyStore
      = some (.created { short_code := "abc123", short_url := "h/abc123",
                         original_url := "https://example.com", expires_at := .none },
              storeC3) ∧
    (redirect_to_url "abc123" storeC3).1 = .redirect "https://example.com" ∧
    ((get_stats "abc123" 1000000 storeC3).1.map StatsResponse.is_active) = some true := by
  decide

/-- Claim C4: "Resolve(code) reports NotFound if and only if the code is
absent or its record is expired (expires_at ≤ now); otherwise it increments
click_count by 1 and returns target_url."  The code violates the
only-if direction: `redirect_to_url` checks only membership in
url_mappings and never expiry, so on a store holding an expired-but-present
record it increments the counter and redirects; and the sweep that was
supposed to have removed the record beforehand raises TypeError instead. -/
theorem C4_resolve_ignores_expiry :
    redirect_to_url "abc123" exExpired = (.redirect "https://x.example", exExpiredClicked) ∧
    cleanup_expired_urls 200 exExpired = .error .typeError := by decide

/-- Claim C5: "Stats(code) returns a snapshot whose is_active field equals
(expires_at absent OR expires_at > now), and Stats reports NotFound exactly
when Resolve would (code absent or expired)."  The code violates this: on
an expired-but-present record (expiry 100, now 200) `get_stats` returns a
200 snapshot rather than NotFound; and at the boundary now = expires_at =
100 it computes is_active with `not (expires_at < now)`, i.e. expires_at
≥ now, reporting true where the claim's formula (expires_at > now) gives
false. -/
theorem C5_stats_on_expired :
    get_stats "abc123" 200 exExpired
      = (some { short_code := "abc123", original_url := "https://x.example", clicks := 0,
                created_at := .isoStr 50, expires_at := .isoStr 100, is_active := false },
         exExpired) ∧
    ((get_stats "abc123" 100 exExpired).1.map StatsResponse.is_active) = some true := by
  decide

/-- Claim C6: "Short-code uniqueness is an invariant preserved by every
operation: Insert retries on collision until it finds a code not currently
live, so for every Insert the returned code is unique among all
currently-live codes at the moment of insertion, and no two live records
ever share a code."  Confirmed: whenever shorten_url creates a record, the
returned code had no binding in url_mappings at the moment of insertion
(the retry loop skips every colliding candidate), and each of the five
operations preserves key-distinctness of both dicts. -/
theorem C6_code_uniqueness :
    (∀ candidates now host body s resp s',
        shorten_url candidates now host body s = some (.created resp, s') →
        dlookup resp.short_code s.url_mappings = Option.none ∧
        (distinctCodes s → distinctCodes s')) ∧
    (∀ code s, distinctCodes s → distinctCodes (redirect_to_url code s).2) ∧
    (∀ code now s, distinctCodes s → distinctCodes (get_stats code now s).2) ∧
    (∀ host s, distinctCodes s → distinctCodes (list_urls host s).2) ∧
    (∀ now s s', cleanup_expired_urls now s = .ok s' → distinctCodes s → distinctCodes s') := by
  refine ⟨?_, ?_, ?_, ?_, ?_⟩
  · intro candidates now host body s resp s' h
    obtain ⟨b, u, c, hbody, hu, hv, hp, hresp, hs'⟩ := shorten_created_inv _ _ _ _ _ _ _ h
    constructor
    · rw [hresp]
      exact pickCode_eq_some _ _ _ hp
    · intro hd
      rw [hs']
      exact ⟨nodup_keys_dinsert _ _ _ hd.1, nodup_keys_dinsert _ _ _ hd.2⟩
  · intro code s hd
    cases hl : dlookup code s.url_mappings with
    | none => simpa [redirect_to_url, hl] using hd
    | some url =>
      have h2 : (redirect_to_url code s).2
          = { s with url_stats := statsIncClick code s.url_stats } := by
        simp [redirect_to_url, hl]
      rw [h2]
      exact ⟨hd.1, nodup_keys_statsIncClick _ _ hd.2⟩
  · intro code now s hd
    cases hl : dlookup code s.url_mappings with
    | none => simpa [get_stats, hl] using hd
    | some url =>
      cases hs : dlookup code s.url_stats with
      | some e =>
        have h2 : (get_stats code now s).2 = s := by
          simp [get_stats, hl, dgetDefault_of_lookup_some _ _ _ hs]
        rw [h2]
        exact hd
      | none =>
        have h2 : (get_stats code now s).2
            = { s with url_stats := dinsert code defaultStat s.url_stats } := by
          simp [get_stats, hl, dgetDefault_of_lookup_none _ _ hs]
        rw [h2]
        exact ⟨hd.1, nodup_keys_dinsert _ _ _ hd.2⟩
  · intro host s hd
    have h2 : (list_urls host s).2
        = { s with url_stats := (s.url_mappings.foldl (listStep host) ([], s.url_stats)).2 } :=
      rfl
    rw [h2]
    exact ⟨hd.1, foldUrls_nodup host _ _ _ hd.2⟩
  · intro now s s' h hd
    rw [cleanup_ok_eq now s s' h]
    exact hd

/-- Witness for C6: a concrete insertion of "https://wit6.example" under
candidate code "zzz111" into the empty store. -/
theorem C6_code_uniqueness_witness :
    dlookup "zzz111" emptyStore.url_mappings = Option.none ∧
    distinctCodes { url_mappings := [("zzz111", "https://wit6.example")],
                    url_stats := [("zzz111",
                      { clicks := 0, created_at := .isoStr 0, expires_at := .none })] } :=
  ⟨(C6_code_uniqueness.1 ["zzz111"] 0 "h/"
      (some { url := some "https://wit6.example", ttl_hours := Option.none }) emptyStore
      { short_code := "zzz111", short_url := "h/zzz111",
        original_url := "https://wit6.example", expires_at := .none }
      { url_mappings := [("zzz111", "https://wit6.example")],
        url_stats := [("zzz111", { clicks := 0, created_at := .isoStr 0, expires_at := .none })] }
      (by decide)).1,
   (C6_code_uniqueness.1 ["zzz111"] 0 "h/"
      (some { url := some "https://wit6.example", ttl_hours := Option.none }) emptyStore
      { short_code := "zzz111", short_url := "h/zzz111",
        original_url := "https://wit6.example", expires_at := .none }
      { url_mappings := [("zzz111", "https://wit6.example")],
        url_stats := [("zzz111", { clicks := 0, created_at := .isoStr 0, expires_at := .none })] }
      (by decide)).2 (by decide)⟩

/-- Claim C7: "POST /api/shorten returns 400 if and only if the url field
is missing or the supplied url fails validation (scheme in \x7bhttp, https\x7d
and non-empty host); on such a rejection the store state is unchanged, and
on any other input it returns 201 with a new record inserted."  Confirmed
for request bodies of the interface schema (url a string, ttl_hours a
number or absent): the handler answers 400 exactly when the url field is
absent (including a missing or empty body) or the stripped url fails
is_valid_url; every 400 leaves the store untouched; and on a valid url the
handler - once the retry loop yields a code - answers 201 having inserted
exactly the new record into both dicts. -/
theorem C7_shorten_validation (candidates : List String) (now : Datetime) (host : String)
    (body : Option ShortenBody) (s : Store) :
    ((∃ msg s', shorten_url candidates now host body s = some (.badRequest msg, s')) ↔
      (urlField body = Option.none ∨
        ∃ u, urlField body = some u ∧ is_valid_url (pyStrip u) = false)) ∧
    (∀ msg s', shorten_url candidates now host body s = some (.badRequest msg, s') → s' = s) ∧
    (∀ u c, urlField body = some u → is_valid_url (pyStrip u) = true →
      pickCode candidates s.url_mappings = some c →
      shorten_url candidates now host body s =
        some (.created { short_code := c, short_url := host ++ c,
                         original_url := pyStrip u,
                         expires_at := expires_at_of now (ttlField body) },
              { url_mappings := dinsert c (pyStrip u) s.url_mappings,
                url_stats := dinsert c
                  { clicks := 0, created_at := .isoStr now,
                    expires_at := expires_at_of now (ttlField body) } s.url_stats })) := by
  refine ⟨⟨?_, ?_⟩, ?_, ?_⟩
  · rintro ⟨msg, s', h⟩
    exact (shorten_badRequest_inv _ _ _ _ _ _ _ h).2
  · rintro (h | ⟨u, hu, hv⟩)
    · exact ⟨_, _, shorten_of_url_none _ _ _ _ _ h⟩
    · exact ⟨_, _, shorten_of_invalid _ _ _ _ _ _ hu hv⟩
  · intro msg s' h
    exact (shorten_badRequest_inv _ _ _ _ _ _ _ h).1
  · intro u c hu hv hp
    exact shorten_of_valid _ _ _ _ _ _ _ hu hv hp

/-- Witness for C7: the 201 branch at a concrete valid request against the
empty store. -/
theorem C7_shorten_validation_witness :
    shorten_url ["abc777"] 0 "h/"
        (some { url := some "https://wit7.example", ttl_hours := Option.none }) emptyStore
      = some (.created { short_code := "abc777", short_url := "h/abc777",
                         original_url := "https://wit7.example", expires_at := .none },
              { url_mappings := [("abc777", "https://wit7.example")],
                url_stats := [("abc777",
                  { clicks := 0, created_at := .isoStr 0, expires_at := .none })] }) :=
  (C7_shorten_validation ["abc777"] 0 "h/"
      (some { url := some "https://wit7.example", ttl_hours := Option.none }) emptyStore).2.2
    "https://wit7.example" "abc777" rfl (by decide) rfl

/-- Claim C8: "For every live, non-expiring record and every N, N
concurrent successful Resolve calls on its code leave its click_count
equal to N plus its prior value - increments are totally ordered and no
update is lost."  Confirmed in the interleaving model: each Resolve is the
unlocked membership test followed by the lock-protected (hence atomic)
increment, and for every schedule interleaving the steps of N such threads
against a store in which the code is mapped (and nothing else runs, so the
record cannot expire away), once all threads have finished the code's click
counter is exactly N above its initial value. -/
theorem C8_concurrent_clicks (code url : String) (s : Store) (n : Nat) (sched : List Nat)
    (hlive : dlookup code s.url_mappings = some url)
    (hdone : ∀ t ∈ (runSchedule code sched s (List.replicate n .ready)).2, isDone t = true) :
    clicksOf (runSchedule code sched s (List.replicate n .ready)).1 code
      = clicksOf s code + n := by
  have hfound : (dlookup code s.url_mappings).isSome = true := by rw [hlive]; rfl
  have hok : ∀ t ∈ List.replicate n TStat.ready,
      t = TStat.ready ∨ t = TStat.checked true ∨ t = TStat.done true :=
    fun t ht => Or.inl (List.eq_of_mem_replicate ht)
  obtain ⟨hm, hok2, hlen, hc⟩ :=
    runSchedule_inv code sched s (List.replicate n .ready) hfound hok
  have halldone : ∀ t ∈ (runSchedule code sched s (List.replicate n .ready)).2,
      t = TStat.done true := by
    intro t ht
    rcases hok2 t ht with h1 | h1 | h1
    · exact absurd (hdone t ht) (by rw [h1]; simp [isDone])
    · exact absurd (hdone t ht) (by rw [h1]; simp [isDone])
    · exact h1
  have hdc : dcount (runSchedule code sched s (List.replicate n .ready)).2 = n := by
    rw [dcount_done_eq_length _ halldone, hlen, List.length_replicate]
  rw [dcount_replicate_ready, hdc] at hc
  omega

/-- Witness for C8: two threads resolving "abc123" against a one-record
store under the alternating schedule thread 0, thread 1, thread 0,
thread 1. -/
theorem C8_concurrent_clicks_witness :
    clicksOf (runSchedule "abc123" [0, 1, 0, 1] exNoTtl (List.replicate 2 .ready)).1 "abc123"
      = clicksOf exNoTtl "abc123" + 2 :=
  C8_concurrent_clicks "abc123" "https://x.example" exNoTtl 2 [0, 1, 0, 1]
    (by decide) (by decide)

/-- Claim C9: "After every store operation (Insert, Resolve, Stats, List,
Sweep), the mapping table url_mappings and the metadata table url_stats
have exactly the same set of keys."  Confirmed as preservation: from any
state in which the two dicts have the same keys, every operation leads to a
state in which they still do (Insert adds the code to both; Resolve touches
only an existing stats entry; Stats and List only read entries that the
invariant guarantees to exist; Sweep either fails or changes nothing). -/
theorem C9_keys_invariant :
    (∀ candidates now host body s r s',
        shorten_url candidates now host body s = some (r, s') → sameKeys s → sameKeys s') ∧
    (∀ code s, sameKeys s → sameKeys (redirect_to_url code s).2) ∧
    (∀ code now s, sameKeys s → sameKeys (get_stats code now s).2) ∧
    (∀ host s, sameKeys s → sameKeys (list_urls host s).2) ∧
    (∀ now s s', cleanup_expired_urls now s = .ok s' → sameKeys s → sameKeys s') := by
  refine ⟨?_, ?_, ?_, ?_, ?_⟩
  · intro candidates now host body s r s' h hk
    cases r with
    | badRequest msg =>
      rw [(shorten_badRequest_inv _ _ _ _ _ _ _ h).1]
      exact hk
    | created resp =>
      obtain ⟨b, u, c, hbody, hu, hv, hp, hresp, hs'⟩ := shorten_created_inv _ _ _ _ _ _ _ h
      rw [hs']
      unfold sameKeys
      constructor
      · intro x hx
        rcases (mem_keys_dinsert x c (pyStrip u) s.url_mappings).mp hx with h1 | h1
        · exact (mem_keys_dinsert x c _ s.url_stats).mpr (Or.inl h1)
        · exact (mem_keys_dinsert x c _ s.url_stats).mpr (Or.inr (hk.1 x h1))
      · intro x hx
        rcases (mem_keys_dinsert x c _ s.url_stats).mp hx with h1 | h1
        · exact (mem_keys_dinsert x c (pyStrip u) s.url_mappings).mpr (Or.inl h1)
        · exact (mem_keys_dinsert x c (pyStrip u) s.url_mappings).mpr (Or.inr (hk.2 x h1))
  · intro code s hk
    cases hl : dlookup code s.url_mappings with
    | none => simpa [redirect_to_url, hl] using hk
    | some url =>
      have h2 : (redirect_to_url code s).2
          = { s with url_stats := statsIncClick code s.url_stats } := by
        simp [redirect_to_url, hl]
      rw [h2]
      have hcode : code ∈ keys s.url_mappings :=
        (mem_keys_iff_isSome code s.url_mappings).mpr (by rw [hl]; rfl)
      unfold sameKeys
      constructor
      · intro x hx
        exact (mem_keys_statsIncClick x code s.url_stats).mpr (Or.inr (hk.1 x hx))
      · intro x hx
        rcases (mem_keys_statsIncClick x code s.url_stats).mp hx with h1 | h1
        · rw [h1]
          exact hcode
        · exact hk.2 x h1
  · intro code now s hk
    cases hl : dlookup code s.url_mappings with
    | none => simpa [get_stats, hl] using hk
    | some url =>
      have hcode : code ∈ keys s.url_mappings :=
        (mem_keys_iff_isSome code s.url_mappings).mpr (by rw [hl]; rfl)
      obtain ⟨e, he⟩ := Option.isSome_iff_exists.mp
        ((mem_keys_iff_isSome code s.url_stats).mp (hk.1 code hcode))
      have h2 : (get_stats code now s).2 = s := by
        simp [get_stats, hl, dgetDefault_of_lookup_some _ _ _ he]
      rw [h2]
      exact hk
  · intro host s hk
    have hall : ∀ p ∈ s.url_mappings, (dlookup p.1 s.url_stats).isSome = true := by
      intro p hp
      exact (mem_keys_iff_isSome p.1 s.url_stats).mp
        (hk.1 p.1 (List.mem_map_of_mem Prod.fst hp))
    have h2 : (list_urls host s).2 = s := by
      show ({ s with
        url_stats := (s.url_mappings.foldl (listStep host) ([], s.url_stats)).2 } : Store) = s
      rw [foldUrls_stats_eq host _ _ _ hall]
    rw [h2]
    exact hk
  · intro now s s' h hk
    rw [cleanup_ok_eq now s s' h]
    exact hk

/-- Witness for C9: a concrete Resolve against a one-record store whose
dicts share their key. -/
theorem C9_keys_invariant_witness :
    sameKeys (redirect_to_url "abc123" exNoTtl).2 :=
  C9_keys_invariant.2.1 "abc123" exNoTtl (by decide)

/-- Claim C10: "Insert strips leading and trailing whitespace from the
submitted url before validating and storing it."  Confirmed: with a string
url in the body, validation is applied to the stripped string (the 400
branch fires exactly on its validity), and on a 201 both the stored
target_url and the echoed original_url equal the stripped submission. -/
theorem C10_strip_whitespace (candidates : List String) (now : Datetime) (host : String)
    (b : ShortenBody) (u : String) (s : Store) (hu : b.url = some u) :
    (is_valid_url (pyStrip u) = false →
      shorten_url candidates now host (some b) s =
        some (.badRequest "Invalid URL. Must include http:// or https:// and a domain", s)) ∧
    (∀ resp s', shorten_url candidates now host (some b) s = some (.created resp, s') →
      resp.original_url = pyStrip u ∧
      dlookup resp.short_code s'.url_mappings = some (pyStrip u)) := by
  constructor
  · intro hv
    exact shorten_of_invalid _ _ _ _ _ _ hu hv
  · intro resp s' h
    obtain ⟨b2, u2, c, hbody, hu2, hv, hp, hresp, hs'⟩ := shorten_created_inv _ _ _ _ _ _ _ h
    obtain rfl : b = b2 := Option.some.inj hbody
    have huu : u2 = u := by rw [hu] at hu2; exact (Option.some.inj hu2).symm
    rw [huu] at hresp hs'
    constructor
    · rw [hresp]
    · rw [hresp, hs']
      exact dlookup_dinsert_self c (pyStrip u) s.url_mappings

/-- Witness for C10: a concrete submission with surrounding whitespace. -/
theorem C10_strip_whitespace_witness :
    ({ short_code := "q10aaa", short_url := "h/q10aaa",
       original_url := "https://wit10.example", expires_at := .none } : ShortenResponse).original_url
      = pyStrip "  https://wit10.example  " ∧
    dlookup "q10aaa" (Store.mk [("q10aaa", "https://wit10.example")]
        [("q10aaa", { clicks := 0, created_at := .isoStr 0, expires_at := .none })]).url_mappings
      = some (pyStrip "  https://wit10.example  ") :=
  (C10_strip_whitespace ["q10aaa"] 0 "h/"
      { url := some "  https://wit10.example  ", ttl_hours := Option.none }
      "  https://wit10.example  " emptyStore rfl).2
    { short_code := "q10aaa", short_url := "h/q10aaa",
      original_url := "https://wit10.example", expires_at := .none }
    (Store.mk [("q10aaa", "https://wit10.example")]
      [("q10aaa", { clicks := 0, created_at := .isoStr 0, expires_at := .none })])
    (by decide)

end UrlShortener
